import Mathlib

/-!
Verification of the observation store of the network-problem-detector
repository (`pkg/agent/db/writer2.go`) against its natural-language
specification.

The Go code is shallowly embedded: time values (`time.Time`) become `Int`
seconds since the Unix epoch (UTC); byte streams become `List Nat` with each
element a byte value; fallible operations return `Except String`; the
store directory becomes an association list from hour bucket to file bytes.
All definitions are executable and are translated from the source file,
except where a doc comment explicitly says `Modelled from the spec:` for
code of the repository that lies outside the provided sources
(the `StringIDMap` / protobuf codec and the `nwpd.Observations` sort order).
-/

/-- `startOfHourUTC` (writer2.go:371-374): floor a time to the start of its
UTC hour.  In the seconds embedding this is `t - t % 3600` (Euclidean `%`,
matching Go's calendar arithmetic also for times before the epoch). -/
def startOfHourUTC (t : Int) : Int :=
  t - t % 3600

/-- The record marker constants (writer2.go:39-43). -/
def markerStringID : Nat := 1

/-- Marker for an encoded observation record (writer2.go:41). -/
def markerObservation : Nat := 2

/-- Marker for the diagnostic open record (writer2.go:42). -/
def markerOpen : Nat := 127

/-- The two little-endian bytes Go's `binary.Write` emits for
`uint16(n)` (writer2.go:147): the conversion `uint16(n)` truncates `n`
modulo 2^16 and cannot fail. -/
def le16 (n : Nat) : List Nat :=
  [n % 65536 % 256, n % 65536 / 256]

/-- The bytes `writeRecord` (writer2.go:142-155) appends to the stream:
one marker byte, the payload length as two little-endian bytes (wrapped to
`uint16` by Go's integer conversion), then the payload itself. -/
def frameRecord (marker : Nat) (value : List Nat) : List Nat :=
  marker :: (le16 value.length ++ value)

/-- `writeRecord` (writer2.go:142-155).  Its Go signature returns an error,
but every error return forwards an error of the underlying `io.Writer`;
the writer is modelled as an in-memory buffer whose writes always succeed
(as for `bytes.Buffer`), and the function contains no length check, so no
error path is reachable: it returns the framed bytes. -/
def writeRecord (marker : Nat) (value : List Nat) : Except String (List Nat) :=
  Except.ok (frameRecord marker value)

/-- `readRecord` (writer2.go:157-178) on a deterministic byte stream.
`Except.ok none` is the clean end-of-stream signal (`io.EOF` before the
marker byte, Go returns `(0, nil, nil)`); an exhausted stream while reading
the two length bytes is an error of `binary.Read`; a stream shorter than
the declared payload length is the `incomplete block` error.  On success
the record `(marker, payload)` and the remaining stream are returned. -/
def readRecord (s : List Nat) : Except String (Option ((Nat × List Nat) × List Nat)) :=
  match s with
  | [] => Except.ok none
  | [_] => Except.error "reading record length failed"
  | [_, _] => Except.error "reading record length failed"
  | m :: b0 :: b1 :: rest =>
    let len := b0 + 256 * b1
    if rest.length < len then
      Except.error "incomplete block"
    else
      Except.ok (some ((m, rest.take len), rest.drop len))

/-- C3 counterexample: for the 65536-byte payload, `writeRecord` does not
return an error; it frames the record with a wrapped (zero) length field
and the full payload. -/
theorem writeRecord_oversized_is_not_an_error :
    writeRecord 2 (List.replicate 65536 7) =
      Except.ok (2 :: 0 :: 0 :: List.replicate 65536 7)
    ∧ (List.replicate 65536 7).length = 65536 := by
  have h2 : le16 65536 = [0, 0] := by decide
  refine ⟨?_, List.length_replicate 65536 7⟩
  calc writeRecord 2 (List.replicate 65536 7)
      = Except.ok (2 :: (le16 (List.replicate 65536 7).length ++ List.replicate 65536 7)) := rfl
    _ = Except.ok (2 :: (le16 65536 ++ List.replicate 65536 7)) := by
          rw [List.length_replicate]
    _ = Except.ok (2 :: ([0, 0] ++ List.replicate 65536 7)) := by rw [h2]
    _ = Except.ok (2 :: 0 :: 0 :: List.replicate 65536 7) := rfl

/-- C3 (amended): `writeRecord` never fails on an in-memory stream; it
writes the marker byte, the payload length modulo 2^16 as a 2-byte
little-endian integer, then the payload bytes.  When the payload length is
at most 65535 the length field is exact. -/
theorem writeRecord_frames (m : Nat) (v : List Nat) :
    writeRecord m v = Except.ok (m :: (v.length % 65536 % 256 :: v.length % 65536 / 256 :: v))
    ∧ (v.length ≤ 65535 →
        writeRecord m v = Except.ok (m :: (v.length % 256 :: v.length / 256 :: v))) := by
  constructor
  · simp [writeRecord, frameRecord, le16]
  · intro h
    have hlt : v.length < 65536 := Nat.lt_succ_of_le h
    simp [writeRecord, frameRecord, le16, Nat.mod_eq_of_lt hlt]

/-- Witness for `writeRecord_frames` at marker `1`, payload `[5]`. -/
theorem writeRecord_frames_witness :
    writeRecord 1 [5] = Except.ok (1 :: ([5] : List Nat).length % 256 :: ([5] : List Nat).length / 256 :: [5]) :=
  (writeRecord_frames 1 [5]).2 (by decide)

/-- C5: `readRecord` signals clean end-of-stream exactly on the empty
stream; reading back a complete framed record (payload within the uint16
bound) succeeds and consumes exactly the frame; and every strict nonempty
prefix of a framed record — the stream ending after the marker but before
the length bytes, or before the full payload — is a hard error, never the
clean end-of-stream signal. -/
theorem readRecord_eos_iff_empty_and_truncation_errors
    (s : List Nat) (m : Nat) (payload : List Nat) (k : Nat)
    (hp : payload.length ≤ 65535) :
    (readRecord s = Except.ok none ↔ s = [])
    ∧ readRecord (frameRecord m payload) = Except.ok (some ((m, payload), []))
    ∧ (0 < k → k < (frameRecord m payload).length →
        ∃ e, readRecord ((frameRecord m payload).take k) = Except.error e) := by
  have hlt : payload.length < 65536 := Nat.lt_succ_of_le hp
  have hmod : payload.length % 65536 = payload.length := Nat.mod_eq_of_lt hlt
  have hlen : payload.length % 65536 % 256 + 256 * (payload.length % 65536 / 256) =
      payload.length := by
    rw [hmod]; exact Nat.mod_add_div payload.length 256
  refine ⟨?_, ?_, ?_⟩
  · cases s with
    | nil => simp [readRecord]
    | cons a t =>
      cases t with
      | nil => simp [readRecord]
      | cons b u =>
        cases u with
        | nil => simp [readRecord]
        | cons c w =>
          constructor
          · intro h
            by_cases hc : w.length < b + 256 * c
            · simp [readRecord, hc] at h
            · simp [readRecord, hc] at h
          · intro h; cases h
  · simp only [frameRecord, le16, readRecord, List.cons_append, List.nil_append, hlen]
    have : ¬ payload.length < payload.length := lt_irrefl _
    simp [this]
  · intro hk hklt
    have hframe : frameRecord m payload =
        m :: payload.length % 65536 % 256 :: payload.length % 65536 / 256 :: payload := by
      simp [frameRecord, le16]
    rw [hframe] at hklt ⊢
    simp only [List.length_cons] at hklt
    match k, hk with
    | 1, _ => exact ⟨_, rfl⟩
    | 2, _ => exact ⟨_, rfl⟩
    | (j+3), _ =>
      have hj : j < payload.length := by omega
      refine ⟨"incomplete block", ?_⟩
      simp only [List.take_succ_cons, readRecord]
      have htk : (payload.take j).length = j := List.length_take_of_le (Nat.le_of_lt hj)
      rw [htk, hlen]
      simp [hj]

/-- Witness for `readRecord_eos_iff_empty_and_truncation_errors`:
round-trip of the frame `(2, [9, 9])` and a hard error on its prefix of
length 2 (marker read, stream exhausted inside the length bytes). -/
theorem readRecord_truncation_witness :
    readRecord (frameRecord 2 [9, 9]) = Except.ok (some ((2, [9, 9]), []))
    ∧ ∃ e, readRecord ((frameRecord 2 [9, 9]).take 2) = Except.error e := by
  have h := readRecord_eos_iff_empty_and_truncation_errors [7] 2 [9, 9] 2 (by decide)
  exact ⟨h.2.1, h.2.2 (by decide) (by decide)⟩

/-- An observation as seen by the query path (the fields of
`nwpd.Observation` that `ListObservations` inspects): timestamp, success
flag, job ID, source host, destination host. -/
structure Observation where
  timestamp : Int
  ok : Bool
  jobID : String
  srcHost : String
  destHost : String
deriving DecidableEq

/-- `nwpd.ListObservationsOptions` as consumed by `ListObservations`
(writer2.go:312-337).  Go's zero `time.Time` for `End` is modelled by
`none`; a Go nil string slice is `none`, a present (possibly empty) slice
is `some`. -/
structure ListOptions where
  start : Int
  optEnd : Option Int
  limit : Int
  failuresOnly : Bool
  filterJobIDs : Option (List String)
  filterSrcHosts : Option (List String)
  filterDestHosts : Option (List String)
deriving DecidableEq

/-- `all` (writer2.go:301): the filter accepting every key. -/
def allKeys (_ : String) : Bool :=
  true

/-- `createFilter` (writer2.go:303-310): a Go nil slice (`none`) yields the
accept-all filter; otherwise the keys are put in a `StringSet` and the
filter is set membership — note that a present-but-empty slice yields a
filter rejecting every key. -/
def createFilter : Option (List String) → (String → Bool)
  | none => allKeys
  | some keys => fun s => keys.contains s

/-- The start clamp of `ListObservations` (writer2.go:316-323): `start` is
pulled back to `now` when in the future and forward to `now - 24h` when
older than 24 hours. -/
def clampStart (now s : Int) : Int :=
  let startLimit := now - 86400
  if now < s then now
  else if s < startLimit then startLimit
  else s

/-- The window computation of `ListObservations` (writer2.go:315-329):
clamp `start`; default a zero `end` to `now`; otherwise return `none`
(the query's early `return nil, nil`) when `end.After(start)` or
`end.Before(startLimit)` holds — note the first comparison is `After`,
not `Before`, in the source. -/
def effectiveWindow (now optStart : Int) (optEnd : Option Int) : Option (Int × Int) :=
  let startLimit := now - 86400
  let start := clampStart now optStart
  match optEnd with
  | none => some (start, now)
  | some e => if start < e ∨ e < startLimit then none else some (start, e)

/-- The per-observation acceptance test of the `ListObservations` visitor
(writer2.go:351-358), minus the result-limit guard: timestamp inside
`[start, endT]`, not an `Ok` observation when `FailuresOnly` is set, and
all three key filters pass. -/
def acceptObs (start endT : Int) (failuresOnly : Bool)
    (jobIDFilter srcHostFilter destHostFilter : String → Bool)
    (o : Observation) : Bool :=
  if o.timestamp < start ∨ endT < o.timestamp then false
  else if o.ok && failuresOnly then false
  else if !jobIDFilter o.jobID || !srcHostFilter o.srcHost || !destHostFilter o.destHost then false
  else true

/-- The visitor loop of `IterateRecordFile` as driven by `ListObservations`
(writer2.go:347-362) over one file's observations: append each accepted
observation unless the result already holds `limit` entries (Go compares
with `==` on an `int`, so a negative limit never stops the collection). -/
def collectObs (limit : Int) (accept : Observation → Bool)
    (acc : List Observation) : List Observation → List Observation
  | [] => acc
  | o :: rest =>
    if (acc.length : Int) = limit then collectObs limit accept acc rest
    else if accept o then collectObs limit accept (acc ++ [o]) rest
    else collectObs limit accept acc rest

/-- The outer file loop of `ListObservations` (writer2.go:343-366): files
in hour order, with an early break once the limit is reached. -/
def collectFiles (limit : Int) (accept : Observation → Bool)
    (acc : List Observation) : List (List Observation) → List Observation
  | [] => acc
  | f :: rest =>
    if (acc.length : Int) = limit then acc
    else collectFiles limit accept (collectObs limit accept acc f) rest

/-- Timestamp order on observations.  Modelled from the spec: the
`sort.Sort(result)` call sorts by the `nwpd.Observations` order, which the
spec states is ascending by timestamp; that `Less` method is not among the
provided sources. -/
def tsLe (a b : Observation) : Prop :=
  a.timestamp ≤ b.timestamp

instance : DecidableRel tsLe :=
  fun a b => inferInstanceAs (Decidable (a.timestamp ≤ b.timestamp))

instance : IsTotal Observation tsLe :=
  ⟨fun a b => Int.le_total a.timestamp b.timestamp⟩

instance : IsTrans Observation tsLe :=
  ⟨fun _ _ _ => Int.le_trans⟩

/-- The acceptance predicate `ListObservations` uses once the window is
fixed, as a function of the raw options (`none` when the window check
returned early). -/
def queryAccept (now : Int) (opts : ListOptions) (o : Observation) : Bool :=
  match effectiveWindow now opts.start opts.optEnd with
  | none => false
  | some (start, endT) =>
    acceptObs start endT opts.failuresOnly
      (createFilter opts.filterJobIDs) (createFilter opts.filterSrcHosts)
      (createFilter opts.filterDestHosts) o

/-- `ListObservations` (writer2.go:312-369) at the observation level: the
stored hourly files are given as their decoded observation lists in hour
order (`GetRecordFiles` + `IterateRecordFile` supply exactly that); the
window check may return early with the empty result; a zero limit becomes
10000; accepted observations are collected across files and the result is
sorted by timestamp at the end. -/
def listObservations (now : Int) (opts : ListOptions)
    (fileObs : List (List Observation)) : List Observation :=
  match effectiveWindow now opts.start opts.optEnd with
  | none => []
  | some (start, endT) =>
    let limit : Int := if opts.limit = 0 then 10000 else opts.limit
    let accept := acceptObs start endT opts.failuresOnly
      (createFilter opts.filterJobIDs) (createFilter opts.filterSrcHosts)
      (createFilter opts.filterDestHosts)
    List.insertionSort tsLe (collectFiles limit accept [] fileObs)

/-- The claim's reading of one key filter: "empty filter set = accept
all".  This follows the specification's words, for comparison with
`createFilter`, which tests the Go slice for nil instead. -/
def specFilterAccepts : Option (List String) → String → Bool
  | none, _ => true
  | some keys, v => keys.isEmpty || keys.contains v

/-- A present filter list accepts exactly its members; an absent (Go nil)
filter list accepts everything.  This is the behaviour `createFilter`
implements. -/
def filterAccepts : Option (List String) → String → Prop
  | none, _ => True
  | some keys, v => v ∈ keys

theorem collectObs_full (limit : Int) (accept : Observation → Bool)
    (acc : List Observation) (l : List Observation)
    (h : (acc.length : Int) = limit) :
    collectObs limit accept acc l = acc := by
  induction l with
  | nil => rfl
  | cons o rest ih => simp [collectObs, h, ih]

theorem collectObs_closed_form (limit : Int) (accept : Observation → Bool)
    (l : List Observation) :
    ∀ acc : List Observation, (acc.length : Int) ≤ limit →
      collectObs limit accept acc l =
        acc ++ (l.filter accept).take (limit - acc.length).toNat := by
  induction l with
  | nil => intro acc _; simp [collectObs]
  | cons o rest ih =>
    intro acc hacc
    by_cases hfull : (acc.length : Int) = limit
    · have h0 : (limit - (acc.length : Int)).toNat = 0 := by omega
      rw [List.filter]
      cases accept o <;>
        simp [collectObs, hfull, collectObs_full limit accept acc rest hfull, h0]
    · cases ho : accept o with
      | false =>
        simp only [collectObs, if_neg hfull, ho, Bool.false_eq_true, if_false]
        rw [ih acc hacc, List.filter_cons_of_neg (by simp [ho])]
      | true =>
        have hlen : ((acc ++ [o]).length : Int) ≤ limit := by
          simp only [List.length_append, List.length_cons, List.length_nil]
          push_cast
          omega
        simp only [collectObs, if_neg hfull, ho, if_true]
        rw [ih (acc ++ [o]) hlen, List.filter_cons_of_pos ho]
        have hsucc : (limit - (acc.length : Int)).toNat =
            (limit - ((acc ++ [o]).length : Int)).toNat + 1 := by
          simp only [List.length_append, List.length_cons, List.length_nil]
          push_cast
          omega
        rw [hsucc, List.take_succ_cons]
        simp

theorem collectObs_length_le (limit : Int) (accept : Observation → Bool)
    (acc : List Observation) (l : List Observation)
    (h : (acc.length : Int) ≤ limit) :
    ((collectObs limit accept acc l).length : Int) ≤ limit := by
  rw [collectObs_closed_form limit accept l acc h]
  have := List.length_take_le (limit - (acc.length : Int)).toNat (l.filter accept)
  simp only [List.length_append]
  omega

theorem collectObs_append_stream (limit : Int) (accept : Observation → Bool)
    (xs ys : List Observation) :
    ∀ acc : List Observation,
      collectObs limit accept acc (xs ++ ys) =
        collectObs limit accept (collectObs limit accept acc xs) ys := by
  induction xs with
  | nil => intro acc; rfl
  | cons o rest ih =>
    intro acc
    by_cases hfull : (acc.length : Int) = limit
    · simp [collectObs, hfull, ih]
    · by_cases ho : accept o <;> simp [collectObs, hfull, ho, ih]

theorem collectFiles_closed_form (limit : Int) (accept : Observation → Bool)
    (files : List (List Observation)) :
    ∀ acc : List Observation, (acc.length : Int) ≤ limit →
      collectFiles limit accept acc files = collectObs limit accept acc files.flatten := by
  induction files with
  | nil => intro acc _; rfl
  | cons f rest ih =>
    intro acc hacc
    by_cases hfull : (acc.length : Int) = limit
    · simp [collectFiles, hfull, List.flatten_cons,
        collectObs_full limit accept acc _ hfull,
        collectObs_append_stream limit accept f rest.flatten acc]
    · have h1 : ((collectObs limit accept acc f).length : Int) ≤ limit :=
        collectObs_length_le limit accept acc f hacc
      simp only [collectFiles, hfull, if_false, List.flatten_cons]
      rw [ih (collectObs limit accept acc f) h1,
        collectObs_append_stream limit accept f rest.flatten acc]

theorem createFilter_eq_true_iff (ks : Option (List String)) (v : String) :
    createFilter ks v = true ↔ filterAccepts ks v := by
  cases ks <;> simp [createFilter, allKeys, filterAccepts]

/-- C1 (the code at the failing input): with `now = 360000`, a query for
the last two hours — `start = now - 7200`, `end = now` — has its start
unchanged by the clamp and its end inside the 24-hour window, yet the
window check of `ListObservations` returns the early empty result, because
the source tests `end.After(start)` where only `end.Before(start)` should
end the query; a stored observation matching every filter is dropped. -/
theorem listObservations_end_after_clamped_start_yields_empty :
    effectiveWindow 360000 352800 (some 360000) = none
    ∧ clampStart 360000 352800 = 352800
    ∧ 352800 < (360000 : Int)
    ∧ 360000 - 86400 ≤ (352800 : Int)
    ∧ listObservations 360000
        ⟨352800, some 360000, 100, false, none, none, none⟩
        [[⟨356000, true, "job1", "src1", "dest1"⟩]] = []
    ∧ acceptObs 352800 360000 false (createFilter none) (createFilter none)
        (createFilter none) ⟨356000, true, "job1", "src1", "dest1"⟩ = true := by
  decide

/-- C2 counterexample: one stored file holds observations with timestamps
10, 1, 2 in that replay order; with limit 2 the query returns the first
two encountered (timestamps 10 and 1) sorted — `[1, 10]` — and not the two
earliest by timestamp, which are `[1, 2]`. -/
theorem listObservations_limit_not_earliest :
    listObservations 20 ⟨0, none, 2, false, none, none, none⟩
        [[⟨10, true, "j", "s", "d"⟩, ⟨1, true, "j", "s", "d"⟩, ⟨2, true, "j", "s", "d"⟩]] =
      [⟨1, true, "j", "s", "d"⟩, ⟨10, true, "j", "s", "d"⟩]
    ∧ (List.insertionSort tsLe
        (([[⟨10, true, "j", "s", "d"⟩, ⟨1, true, "j", "s", "d"⟩,
            ⟨2, true, "j", "s", "d"⟩]] : List (List Observation)).flatten.filter
          (queryAccept 20 ⟨0, none, 2, false, none, none, none⟩))).take 2 =
      [⟨1, true, "j", "s", "d"⟩, ⟨2, true, "j", "s", "d"⟩]
    ∧ ([⟨1, true, "j", "s", "d"⟩, ⟨10, true, "j", "s", "d"⟩] : List Observation) ≠
      [⟨1, true, "j", "s", "d"⟩, ⟨2, true, "j", "s", "d"⟩] := by
  decide

/-- C2 (amended): for a positive limit the result of `ListObservations`
has at most `limit` entries and is sorted ascending by timestamp; when the
stored observations are replayed in ascending timestamp order (files in
hour order, records in write order), the result is exactly the `limit`
earliest accepted observations.  Without that ordering premise the code
keeps the first `limit` accepted in replay order, not the earliest. -/
theorem listObservations_limit_and_order (now : Int) (opts : ListOptions)
    (fileObs : List (List Observation)) (hpos : 0 < opts.limit) :
    (listObservations now opts fileObs).length ≤ opts.limit.toNat
    ∧ List.Sorted tsLe (listObservations now opts fileObs)
    ∧ (List.Sorted tsLe fileObs.flatten →
        listObservations now opts fileObs =
          (List.insertionSort tsLe
            (fileObs.flatten.filter (queryAccept now opts))).take opts.limit.toNat) := by
  rcases hw : effectiveWindow now opts.start opts.optEnd with _ | ⟨start, endT⟩
  · refine ⟨?_, ?_, ?_⟩
    · simp [listObservations, hw]
    · simp [listObservations, hw]
    · intro _
      have hqa : ∀ o, queryAccept now opts o = false := by
        intro o; simp [queryAccept, hw]
      have hnil : fileObs.flatten.filter (queryAccept now opts) = [] := by
        rw [List.filter_congr (fun o _ => hqa o)]
        simp
      rw [hnil]
      simp [listObservations, hw]
  · have hlim : (if opts.limit = 0 then (10000 : Int) else opts.limit) = opts.limit :=
      if_neg (by omega)
    have hzero : (([] : List Observation).length : Int) ≤ opts.limit := by
      simp; omega
    have hcoll : collectFiles opts.limit
        (acceptObs start endT opts.failuresOnly (createFilter opts.filterJobIDs)
          (createFilter opts.filterSrcHosts) (createFilter opts.filterDestHosts))
        [] fileObs =
        (fileObs.flatten.filter
          (acceptObs start endT opts.failuresOnly (createFilter opts.filterJobIDs)
            (createFilter opts.filterSrcHosts) (createFilter opts.filterDestHosts))).take
          opts.limit.toNat := by
      rw [collectFiles_closed_form _ _ fileObs [] hzero,
        collectObs_closed_form _ _ fileObs.flatten [] hzero]
      simp
    have hres : listObservations now opts fileObs =
        List.insertionSort tsLe
          ((fileObs.flatten.filter
            (acceptObs start endT opts.failuresOnly (createFilter opts.filterJobIDs)
              (createFilter opts.filterSrcHosts) (createFilter opts.filterDestHosts))).take
            opts.limit.toNat) := by
      simp only [listObservations, hw, hlim]
      rw [hcoll]
    have hfq : fileObs.flatten.filter (queryAccept now opts) =
        fileObs.flatten.filter
          (acceptObs start endT opts.failuresOnly (createFilter opts.filterJobIDs)
            (createFilter opts.filterSrcHosts) (createFilter opts.filterDestHosts)) :=
      List.filter_congr (fun o _ => by simp [queryAccept, hw])
    refine ⟨?_, ?_, ?_⟩
    · rw [hres, (List.perm_insertionSort tsLe _).length_eq]
      exact List.length_take_le _ _
    · rw [hres]
      exact List.sorted_insertionSort tsLe _
    · intro hsorted
      have hsf : List.Sorted tsLe
          (fileObs.flatten.filter
            (acceptObs start endT opts.failuresOnly (createFilter opts.filterJobIDs)
              (createFilter opts.filterSrcHosts) (createFilter opts.filterDestHosts))) :=
        hsorted.sublist (List.filter_sublist _)
      have hst : List.Sorted tsLe
          ((fileObs.flatten.filter
            (acceptObs start endT opts.failuresOnly (createFilter opts.filterJobIDs)
              (createFilter opts.filterSrcHosts) (createFilter opts.filterDestHosts))).take
            opts.limit.toNat) :=
        hsf.sublist (List.take_sublist _ _)
      rw [hres, hst.insertionSort_eq, hfq, hsf.insertionSort_eq]

/-- Witness for `listObservations_limit_and_order`: three stored
observations with timestamps 1, 2, 10 in replay order, limit 2; the query
returns the two earliest, sorted. -/
theorem listObservations_limit_and_order_witness :
    (listObservations 20 ⟨0, none, 2, false, none, none, none⟩
        [[⟨1, true, "j", "s", "d"⟩], [⟨2, true, "j", "s", "d"⟩],
          [⟨10, true, "j", "s", "d"⟩]]).length ≤ 2
    ∧ List.Sorted tsLe
        (listObservations 20 ⟨0, none, 2, false, none, none, none⟩
          [[⟨1, true, "j", "s", "d"⟩], [⟨2, true, "j", "s", "d"⟩],
            [⟨10, true, "j", "s", "d"⟩]])
    ∧ listObservations 20 ⟨0, none, 2, false, none, none, none⟩
        [[⟨1, true, "j", "s", "d"⟩], [⟨2, true, "j", "s", "d"⟩],
          [⟨10, true, "j", "s", "d"⟩]] =
        (List.insertionSort tsLe
          (([[⟨1, true, "j", "s", "d"⟩], [⟨2, true, "j", "s", "d"⟩],
            [⟨10, true, "j", "s", "d"⟩]] : List (List Observation)).flatten.filter
            (queryAccept 20 ⟨0, none, 2, false, none, none, none⟩))).take 2 := by
  have h := listObservations_limit_and_order 20 ⟨0, none, 2, false, none, none, none⟩
    [[⟨1, true, "j", "s", "d"⟩], [⟨2, true, "j", "s", "d"⟩], [⟨10, true, "j", "s", "d"⟩]]
    (by decide)
  exact ⟨h.1, h.2.1, h.2.2 (by decide)⟩

/-- C7 counterexample: an observation inside the window, not a success,
with job ID filter given as a present-but-empty list.  The claim's reading
(an empty filter set accepts every value) accepts it, but `createFilter`
tests the Go slice for nil, so the empty filter rejects every key and the
observation is rejected. -/
theorem acceptObs_present_empty_filter_rejects :
    acceptObs 0 10 false (createFilter (some [])) (createFilter none) (createFilter none)
        ⟨5, false, "job", "src", "dst"⟩ = false
    ∧ specFilterAccepts (some []) "job" = true
    ∧ (0 : Int) ≤ 5 ∧ (5 : Int) ≤ 10
    ∧ (⟨5, false, "job", "src", "dst"⟩ : Observation).ok = false := by
  decide

/-- C7 (amended): the visitor of `ListObservations` accepts an observation
iff its timestamp lies in `[start, end]`, it is not a success while
"failures only" is set, and each key passes its filter — where an absent
(Go nil) filter list accepts every value and a present filter list accepts
exactly its members (so a present empty list rejects everything). -/
theorem acceptObs_characterization (start endT : Int) (fo : Bool)
    (j s d : Option (List String)) (o : Observation) :
    acceptObs start endT fo (createFilter j) (createFilter s) (createFilter d) o = true
      ↔ start ≤ o.timestamp ∧ o.timestamp ≤ endT ∧ ¬(o.ok = true ∧ fo = true)
        ∧ filterAccepts j o.jobID ∧ filterAccepts s o.srcHost ∧ filterAccepts d o.destHost := by
  unfold acceptObs
  split_ifs with h1 h2 h3
  · simp only [Bool.false_eq_true, false_iff]
    rintro ⟨hs, he, -⟩
    omega
  · simp only [Bool.false_eq_true, false_iff]
    rintro ⟨-, -, hnot, -⟩
    simp only [Bool.and_eq_true] at h2
    exact hnot h2
  · simp only [Bool.false_eq_true, false_iff]
    rintro ⟨-, -, -, hj, hsrc, hd⟩
    rw [← createFilter_eq_true_iff] at hj hsrc hd
    simp only [Bool.or_eq_true, Bool.not_eq_true'] at h3
    rcases h3 with (h | h) | h
    · rw [hj] at h; exact Bool.noConfusion h
    · rw [hsrc] at h; exact Bool.noConfusion h
    · rw [hd] at h; exact Bool.noConfusion h
  · simp only [true_iff]
    push_neg at h1
    simp only [Bool.or_eq_true, Bool.not_eq_true'] at h3
    push_neg at h3
    obtain ⟨⟨hj3, hs3⟩, hd3⟩ := h3
    have bj : createFilter j o.jobID = true := by
      cases hcf : createFilter j o.jobID
      · exact absurd hcf hj3
      · rfl
    have bs : createFilter s o.srcHost = true := by
      cases hcf : createFilter s o.srcHost
      · exact absurd hcf hs3
      · rfl
    have bd : createFilter d o.destHost = true := by
      cases hcf : createFilter d o.destHost
      · exact absurd hcf hd3
      · rfl
    refine ⟨h1.1, h1.2, ?_, ?_, ?_, ?_⟩
    · intro hc
      apply h2
      simp [hc.1, hc.2]
    · exact (createFilter_eq_true_iff j o.jobID).mp bj
    · exact (createFilter_eq_true_iff s o.srcHost).mp bs
    · exact (createFilter_eq_true_iff d o.destHost).mp bd

/-- C8: the effective start of `ListObservations` is the requested start
clamped into `[now - 24h, now]` — `max (now - 24h) (min start now)`: a
start after `now` becomes `now`, one older than 24 hours becomes
`now - 24h`, one inside the window is unchanged; and whenever the window
check lets the query proceed, the window it hands to file selection and
the timestamp filter carries exactly that clamped start. -/
theorem listObservations_start_clamped (now s : Int) (e : Option Int) :
    clampStart now s = max (now - 86400) (min s now)
    ∧ now - 86400 ≤ clampStart now s
    ∧ clampStart now s ≤ now
    ∧ (effectiveWindow now s e).elim True (fun w => w.1 = clampStart now s) := by
  refine ⟨?_, ?_, ?_, ?_⟩
  · simp only [clampStart, max_def, min_def]
    split_ifs <;> omega
  · simp only [clampStart]
    split_ifs <;> omega
  · simp only [clampStart]
    split_ifs <;> omega
  · cases e with
    | none => simp [effectiveWindow, Option.elim]
    | some x =>
      simp only [effectiveWindow]
      split_ifs <;> simp [Option.elim]

/-- Modelled from the spec (§3): a dictionary entry `IntString` — an
integer key and a string value.  The `IntString` type and its protobuf
message live in code of the repository outside the provided sources. -/
structure IntString where
  key : Nat
  value : String
deriving DecidableEq

/-- Modelled from the spec (§4.2 `new`): `NewStringIDMap()` is the empty
dictionary; the dictionary is modelled as its entry list. -/
def NewStringIDMap : List IntString :=
  []

/-- Modelled from the spec (§4.2 `fromEntries`): rebuild a dictionary by
replaying entries in order, later duplicate keys silently overwriting
earlier ones (last-writer-wins).  `NewStringIDMapFromData` itself is in
code of the repository outside the provided sources. -/
def NewStringIDMapFromData (objects : List IntString) : List IntString :=
  objects.foldl (fun m o => m.filter (fun p => p.key != o.key) ++ [o]) []

/-- The record loop of `loadStringIDMap` (writer2.go:189-213), collecting
the `IntString` entries of a byte stream in order.  `dec` stands for
`proto.Unmarshal` into `nwpd.IntString` (library code; `none` is an
unmarshalling error).  The loop consumes at least one byte per iteration,
so it is driven by a fuel argument instantiated with more than the stream
length; the fuel-exhausted branch is unreachable for that instantiation. -/
def loadRecordsAux (dec : List Nat → Option IntString) :
    Nat → List Nat → Except String (List IntString)
  | 0, _ => Except.error "reading StringIDMap failed: out of fuel"
  | fuel + 1, s =>
    match readRecord s with
    | Except.error e => Except.error ("reading StringIDMap failed: " ++ e)
    | Except.ok none => Except.ok []
    | Except.ok (some ((marker, value), rem)) =>
      if marker = markerStringID then
        match dec value with
        | none => Except.error "reading StringIDMap from file failed"
        | some obj =>
          match loadRecordsAux dec fuel rem with
          | Except.error e => Except.error e
          | Except.ok objs => Except.ok (obj :: objs)
      else if marker = markerObservation then loadRecordsAux dec fuel rem
      else if marker = markerOpen then loadRecordsAux dec fuel rem
      else Except.error "invalid file format"

/-- `loadStringIDMap` (writer2.go:180-216): a missing file (`none`, the
`os.IsNotExist` branch) yields a fresh empty dictionary with no error;
otherwise the file's records are replayed and the dictionary rebuilt from
the `STRING_ID` entries; any read or unmarshal failure, or an unknown
marker, is an error. -/
def loadStringIDMap (dec : List Nat → Option IntString) :
    Option (List Nat) → Except String (List IntString)
  | none => Except.ok NewStringIDMap
  | some bytes =>
    match loadRecordsAux dec (bytes.length + 1) bytes with
    | Except.error e => Except.error e
    | Except.ok objs => Except.ok (NewStringIDMapFromData objs)

/-- The store directory as the query and write paths see it: hour bucket
of the filename `<prefix>-<YYYY-MM-DD-HH>.records` mapped to the file's
bytes. -/
def lookupFs (fs : List (Int × List Nat)) (h : Int) : Option (List Nat) :=
  (fs.find? (fun p => p.1 == h)).map (fun p => p.2)

/-- `os.Remove` of the hour's file (writer2.go:243). -/
def removeFs (fs : List (Int × List Nat)) (h : Int) : List (Int × List Nat) :=
  fs.filter (fun p => p.1 != h)

/-- `os.OpenFile(..., O_CREATE|O_APPEND|O_WRONLY, ...)` followed by a
write (writer2.go:248-255): create the file if absent, append to it
otherwise. -/
def openAppend (fs : List (Int × List Nat)) (h : Int) (bytes : List Nat) :
    List (Int × List Nat) :=
  match lookupFs fs h with
  | none => fs ++ [(h, bytes)]
  | some _ => fs.map (fun p => if p.1 = h then (p.1, p.2 ++ bytes) else p)

/-- Two ASCII digits of a number below 100 (for Go's `"15:04:05"` time
format). -/
def twoDigits (n : Nat) : List Nat :=
  [48 + n / 10, 48 + n % 10]

/-- The payload of the open record: `now.UTC().Format("15:04:05")`
(writer2.go:252) as ASCII bytes. -/
def timeString (t : Int) : List Nat :=
  let secs := (t % 86400).toNat
  twoDigits (secs / 3600) ++ [58] ++ twoDigits (secs % 3600 / 60) ++ [58] ++ twoDigits (secs % 60)

/-- `writeFile` (writer2.go:45-50): the active file's hour bucket (its
filename), its end of validity (Go field `end`), and its dictionary.  The
open OS handle needs no counterpart in the in-memory store model. -/
structure WriteFile where
  filenameHour : Int
  endTime : Int
  idMap : List IntString
deriving DecidableEq

/-- The outcome of one `getFile` call: the active file, the updated store
directory, and whether this call rotated. -/
structure GetFileResult where
  file : WriteFile
  fs : List (Int × List Nat)
  rotated : Bool
deriving DecidableEq

/-- The rotation body of `getFile` (writer2.go:225-262): compute the
current hour and the validity end `startOfHourUTC(now + 61min)`; load the
hour file's dictionary; on a parse failure delete the file and continue
with a fresh empty dictionary (the error is not propagated); open the
file create-or-append and write the diagnostic open record. -/
def rotateFile (dec : List Nat → Option IntString) (now : Int)
    (fs : List (Int × List Nat)) : GetFileResult :=
  let currentUTC := startOfHourUTC now
  let nextUTC := startOfHourUTC (now + 61 * 60)
  match loadStringIDMap dec (lookupFs fs currentUTC) with
  | Except.ok idMap =>
    { file := ⟨currentUTC, nextUTC, idMap⟩,
      fs := openAppend fs currentUTC (frameRecord markerOpen (timeString now)),
      rotated := true }
  | Except.error _ =>
    { file := ⟨currentUTC, nextUTC, NewStringIDMap⟩,
      fs := openAppend (removeFs fs currentUTC) currentUTC
        (frameRecord markerOpen (timeString now)),
      rotated := true }

/-- `getFile` (writer2.go:218-265): keep the current file unless there is
none or `now.After(file.end)`; otherwise rotate.  The asynchronous
retention sweep it spawns is modelled separately (`cleanOldFiles`). -/
def getFile (dec : List Nat → Option IntString) (current : Option WriteFile)
    (now : Int) (fs : List (Int × List Nat)) : GetFileResult :=
  match current with
  | none => rotateFile dec now fs
  | some f => if f.endTime < now then rotateFile dec now fs else ⟨f, fs, false⟩

theorem lookupFs_append_self (l : List (Int × List Nat)) (h : Int) (b : List Nat)
    (hl : ∀ p ∈ l, p.1 ≠ h) : lookupFs (l ++ [(h, b)]) h = some b := by
  induction l with
  | nil => simp [lookupFs, List.find?]
  | cons q rest ih =>
    have hq : (q.1 == h) = false := by
      simp only [beq_eq_false_iff_ne, ne_eq]
      exact hl q (List.mem_cons_self q rest)
    simp only [List.cons_append, lookupFs, List.find?, hq]
    exact ih (fun p hp => hl p (List.mem_cons_of_mem q hp))

theorem lookupFs_removeFs (fs : List (Int × List Nat)) (h : Int) :
    lookupFs (removeFs fs h) h = none := by
  have hfind : (removeFs fs h).find? (fun p => p.1 == h) = none := by
    rw [List.find?_eq_none]
    intro x hx
    simp only [removeFs, List.mem_filter, bne_iff_ne, ne_eq] at hx
    simp [hx.2]
  simp [lookupFs, hfind]

theorem removeFs_members (fs : List (Int × List Nat)) (h : Int) :
    ∀ p ∈ removeFs fs h, p.1 ≠ h := by
  intro p hp
  simp only [removeFs, List.mem_filter, bne_iff_ne, ne_eq] at hp
  exact hp.2

/-- C4 counterexample: a file opened at the epoch (minute 0 of its hour)
has `end = startOfHourUTC(open + 61min) = 3600`, and a write at `now =
3630` — only 60.5 minutes after opening, inside the claimed 61-minute
validity — already triggers rotation. -/
theorem getFile_rotates_before_61_minutes :
    (getFile (fun _ => none) none 0 []).file.endTime = 3600
    ∧ (getFile (fun _ => none)
        (some (getFile (fun _ => none) none 0 []).file) 3630
        (getFile (fun _ => none) none 0 []).fs).rotated = true
    ∧ (3630 : Int) < 0 + 61 * 60 := by
  refine ⟨rfl, rfl, by decide⟩

/-- C4 (amended): a `getFile` call rotates exactly when there is no
current file or `now` is strictly after the file's validity end; a file
opened (rotated to) at time `t` gets validity end
`startOfHourUTC (t + 61min)` — the start of the UTC hour containing the
moment 61 minutes after opening, not `t + 61min` itself — which is
strictly after `t`; and a call that does not rotate changes nothing. -/
theorem getFile_rotation_policy (dec : List Nat → Option IntString)
    (f : WriteFile) (now t : Int) (fs : List (Int × List Nat)) :
    ((getFile dec (some f) now fs).rotated = true ↔ f.endTime < now)
    ∧ (getFile dec none t fs).file.endTime = startOfHourUTC (t + 61 * 60)
    ∧ t < (getFile dec none t fs).file.endTime
    ∧ ((getFile dec (some f) now fs).rotated = false →
        (getFile dec (some f) now fs).file = f ∧ (getFile dec (some f) now fs).fs = fs) := by
  have hrot : ∀ (u : Int) (g : List (Int × List Nat)),
      (rotateFile dec u g).rotated = true
      ∧ (rotateFile dec u g).file.endTime = startOfHourUTC (u + 61 * 60) := by
    intro u g
    cases hload : loadStringIDMap dec (lookupFs g (startOfHourUTC u)) <;>
      simp [rotateFile, hload]
  refine ⟨?_, ?_, ?_, ?_⟩
  · simp only [getFile]
    split_ifs with hlt
    · simp [(hrot now fs).1, hlt]
    · simpa using hlt
  · simpa [getFile] using (hrot t fs).2
  · have hend := (hrot t fs).2
    simp only [getFile] at hend ⊢
    rw [hend]
    have h1 : 0 ≤ (t + 61 * 60) % 3600 := Int.emod_nonneg _ (by decide)
    have h2 : (t + 61 * 60) % 3600 < 3600 := Int.emod_lt_of_pos _ (by decide)
    simp only [startOfHourUTC]
    omega
  · simp only [getFile]
    split_ifs with hlt
    · intro hr
      rw [(hrot now fs).1] at hr
      exact absurd hr (by simp)
    · intro _
      exact ⟨rfl, rfl⟩

/-- Witness for `getFile_rotation_policy`: with the current file valid
until 3600 and `now = 100`, no rotation happens and the file and store are
unchanged. -/
theorem getFile_rotation_policy_witness :
    (getFile (fun _ => none) (some ⟨0, 3600, []⟩) 100 []).file = ⟨0, 3600, []⟩
    ∧ (getFile (fun _ => none) (some ⟨0, 3600, []⟩) 100 []).fs = [] :=
  (getFile_rotation_policy (fun _ => none) ⟨0, 3600, []⟩ 100 50 []).2.2.2 rfl

/-- C6: on rotation, when the hour file's dictionary fails to parse, the
manager deletes the file and proceeds with a fresh empty dictionary — the
returned active file carries the empty dictionary, the hour's file on disk
is recreated holding only the freshly written open record, and no error
reaches the write path (the rotation result is total); when no file for
the hour exists, the dictionary starts empty with no error, and the call
rotates normally. -/
theorem getFile_corruption_policy (dec : List Nat → Option IntString)
    (now : Int) (fs : List (Int × List Nat)) :
    ((∃ e, loadStringIDMap dec (lookupFs fs (startOfHourUTC now)) = Except.error e) →
        (getFile dec none now fs).file.idMap = NewStringIDMap
        ∧ lookupFs (getFile dec none now fs).fs (startOfHourUTC now) =
            some (frameRecord markerOpen (timeString now)))
    ∧ (lookupFs fs (startOfHourUTC now) = none →
        (getFile dec none now fs).file.idMap = NewStringIDMap
        ∧ (getFile dec none now fs).rotated = true) := by
  constructor
  · rintro ⟨e, he⟩
    constructor
    · simp [getFile, rotateFile, he]
    · simp only [getFile, rotateFile, he]
      have hbranch : openAppend (removeFs fs (startOfHourUTC now)) (startOfHourUTC now)
          (frameRecord markerOpen (timeString now)) =
          removeFs fs (startOfHourUTC now) ++
            [(startOfHourUTC now, frameRecord markerOpen (timeString now))] := by
        simp [openAppend, lookupFs_removeFs]
      rw [hbranch]
      exact lookupFs_append_self _ _ _ (removeFs_members fs (startOfHourUTC now))
  · intro hnone
    have hok : loadStringIDMap dec (lookupFs fs (startOfHourUTC now)) =
        Except.ok NewStringIDMap := by
      rw [hnone]
      rfl
    simp [getFile, rotateFile, hok]

/-- Witness for `getFile_corruption_policy`: the hour-0 file holds the
corrupt bytes `[5, 0, 0]` (a record with the invalid marker 5); rotation
at time 0 returns a file with the empty dictionary and recreates the hour
file with only the open record. -/
theorem getFile_corruption_policy_witness :
    (getFile (fun _ => none) none 0 [(0, [5, 0, 0])]).file.idMap = NewStringIDMap
    ∧ lookupFs (getFile (fun _ => none) none 0 [(0, [5, 0, 0])]).fs (startOfHourUTC 0) =
        some (frameRecord markerOpen (timeString 0)) :=
  (getFile_corruption_policy (fun _ => none) 0 [(0, [5, 0, 0])]).1
    ⟨"invalid file format", by rfl⟩

/-- A directory entry as `cleanOldFiles` sees it (`os.ReadDir` result):
name, directory flag, whether `Info()` succeeds, and the last-modified
time it reports. -/
structure DirEntry where
  name : String
  isDir : Bool
  infoOk : Bool
  modTime : Int
deriving DecidableEq

/-- `isBefore` (writer2.go:291-297): an entry whose `Info()` fails is
treated as not before the limit (skipped); otherwise compare the modified
time with the limit. -/
def isBefore (f : DirEntry) (limitUTC : Int) : Bool :=
  f.infoOk && decide (f.modTime < limitUTC)

/-- The deletion loop of `cleanOldFiles` (writer2.go:279-288): every
non-directory entry carrying the filename prefix and modified before the
limit is removed; `removeOk` tells whether `os.Remove` succeeds for a
name; a failed removal is only logged and the loop continues.  Returns
the deleted names and the names whose removal failed, in directory
order. -/
def cleanLoop (pfx : String) (limitUTC : Int) (removeOk : String → Bool) :
    List DirEntry → List String × List String
  | [] => ([], [])
  | f :: rest =>
    let r := cleanLoop pfx limitUTC removeOk rest
    if !f.isDir && pfx.isPrefixOf f.name && isBefore f limitUTC then
      if removeOk f.name then (f.name :: r.1, r.2)
      else (r.1, f.name :: r.2)
    else r

/-- `cleanOldFiles` (writer2.go:267-289): retention hours of at most 0
count as 1; the horizon is `now - hours` floored to the start of its UTC
hour; a failed directory listing (`none`) is only logged and the sweep
returns; the function has no error return at all. -/
def cleanOldFiles (retentionHours : Int) (pfx : String) (now : Int)
    (listing : Option (List DirEntry)) (removeOk : String → Bool) :
    List String × List String :=
  let hours := if retentionHours ≤ 0 then 1 else retentionHours
  let limitUTC := startOfHourUTC (now - hours * 3600)
  match listing with
  | none => ([], [])
  | some entries => cleanLoop pfx limitUTC removeOk entries

theorem cleanLoop_filter (pfx : String) (limitUTC : Int) (removeOk : String → Bool)
    (l : List DirEntry) :
    cleanLoop pfx limitUTC removeOk l =
      (((l.filter (fun f => !f.isDir && pfx.isPrefixOf f.name && isBefore f limitUTC)).filter
          (fun f => removeOk f.name)).map (fun f => f.name),
       ((l.filter (fun f => !f.isDir && pfx.isPrefixOf f.name && isBefore f limitUTC)).filter
          (fun f => !removeOk f.name)).map (fun f => f.name)) := by
  induction l with
  | nil => rfl
  | cons f rest ih =>
    by_cases hm : (!f.isDir && pfx.isPrefixOf f.name && isBefore f limitUTC) = true
    · cases hr : removeOk f.name <;>
        simp [cleanLoop, hm, hr, ih, List.filter_cons]
    · simp only [Bool.not_eq_true] at hm
      simp [cleanLoop, hm, ih, List.filter_cons]

/-- C9: the retention sweep computes its horizon as `now` minus
`max(configured hours, 1)` hours floored to the start of that UTC hour,
and attempts to delete exactly the directory entries that are not
directories, carry the configured filename prefix, and report a modified
time before the horizon (an entry whose `Info()` call fails is skipped);
individual deletion failures leave the rest of the sweep untouched, a
failed directory listing ends the sweep quietly, and in every case the
sweep returns without an error. -/
theorem cleanOldFiles_deletes_exactly (retentionHours : Int) (pfx : String)
    (now : Int) (entries : List DirEntry) (removeOk : String → Bool) :
    cleanOldFiles retentionHours pfx now (some entries) removeOk =
      (((entries.filter (fun f => !f.isDir && pfx.isPrefixOf f.name
          && isBefore f (startOfHourUTC (now - max retentionHours 1 * 3600)))).filter
          (fun f => removeOk f.name)).map (fun f => f.name),
       ((entries.filter (fun f => !f.isDir && pfx.isPrefixOf f.name
          && isBefore f (startOfHourUTC (now - max retentionHours 1 * 3600)))).filter
          (fun f => !removeOk f.name)).map (fun f => f.name))
    ∧ cleanOldFiles retentionHours pfx now none removeOk = ([], []) := by
  have hmax : (if retentionHours ≤ 0 then (1 : Int) else retentionHours) =
      max retentionHours 1 := by
    rw [max_def]
    split_ifs <;> omega
  constructor
  · simp only [cleanOldFiles, hmax]
    exact cleanLoop_filter pfx _ removeOk entries
  · rfl

/-- The possible outcomes of the file-closing tail of `Stop`. -/
inductive StopFileOutcome where
  | panicked
  | closedFile
  | skippedClose
deriving DecidableEq

/-- The file-closing tail of `Stop` (writer2.go:96-99):
`w.currentFile.Load().(*writeFile)` is an unconditional type assertion.
The atomic slot is `none` when nothing was ever stored (`Load` returns a
nil interface and the assertion panics), `some none` for a stored nil
`*writeFile` pointer (assertion succeeds, the following nil-check skips
the close), and `some (some f)` for a stored pointer to `f` (the file is
closed).  `getFile` only ever stores non-nil pointers (writer2.go:256-262),
so `some none` never arises in the program. -/
def stopCloseFile : Option (Option WriteFile) → StopFileOutcome
  | none => StopFileOutcome.panicked
  | some none => StopFileOutcome.skippedClose
  | some (some _) => StopFileOutcome.closedFile

/-- C10: calling `Stop` before any write file was ever created panics on
the unconditional type assertion instead of skipping the close: the empty
slot yields the panic outcome, not the skipped-close outcome; the
nil-check path is taken only for a stored typed nil pointer, which the
write path never stores, and a stored file is closed. -/
theorem stop_before_first_write_panics :
    stopCloseFile none = StopFileOutcome.panicked
    ∧ stopCloseFile none ≠ StopFileOutcome.skippedClose
    ∧ (∀ f : WriteFile, stopCloseFile (some (some f)) = StopFileOutcome.closedFile)
    ∧ stopCloseFile (some none) = StopFileOutcome.skippedClose := by
  refine ⟨rfl, by decide, fun f => rfl, rfl⟩
